import Mathlib

/-!
Pomodoro clock: a shallow embedding of `script.js`.

The class `PomodoroTimer` of `script.js` is embedded as a record of its fields
together with the part of the browser it talks to: the `localStorage` entry
`"pomodoroSettings"` and the table of timers registered with `setInterval` and
`setTimeout`.  Every method becomes a function on that record.

What is left out: writes to the DOM (`updateDisplay`, `updateModeButtons`,
`updateCycleDisplay`, button enabling, the `pulse` class, the modal) and audio
playback, none of which is read back by the timer logic.

Numbers are exact integers or `NaN`.  Every number the program computes from
settings that passed validation is an integer below `2^53`, where JavaScript
doubles are exact; `completedPomodoros` counts up by one from 0 and is a
natural number.
-/

namespace Pomodoro

/-! ## JavaScript values -/

/-- The values a numeric settings field or `timeLeft` can hold: `NaN`, `null`
(a field read back from a stored JSON `null`), or an integer. -/
inductive JSValue where
  | nan
  | null
  | num (i : Int)
  deriving DecidableEq, Repr

namespace JSValue

/-- ToNumber: `none` stands for `NaN`; `null` converts to `0`. -/
def toNumber : JSValue → Option Int
  | nan => none
  | null => some 0
  | num i => some i

/-- The product `a * b`. -/
def mul (a b : JSValue) : JSValue :=
  match a.toNumber, b.toNumber with
  | some x, some y => num (x * y)
  | _, _ => nan

/-- The value stored by `a--`. -/
def dec (a : JSValue) : JSValue :=
  match a.toNumber with
  | some x => num (x - 1)
  | none => nan

/-- The comparison `a < b`; false as soon as one side is `NaN`. -/
def lt (a b : JSValue) : Bool :=
  match a.toNumber, b.toNumber with
  | some x, some y => decide (x < y)
  | _, _ => false

/-- The comparison `a > b`; false as soon as one side is `NaN`. -/
def gt (a b : JSValue) : Bool :=
  match a.toNumber, b.toNumber with
  | some x, some y => decide (x > y)
  | _, _ => false

/-- The comparison `a <= b`; false as soon as one side is `NaN`. -/
def le (a b : JSValue) : Bool :=
  match a.toNumber, b.toNumber with
  | some x, some y => decide (x ≤ y)
  | _, _ => false

/-- The remainder `a % b`: the sign follows the dividend, and a zero divisor
gives `NaN`. -/
def rem (a b : JSValue) : JSValue :=
  match a.toNumber, b.toNumber with
  | some x, some y => if y = 0 then nan else num (Int.tmod x y)
  | _, _ => nan

/-- Strict equality `a === b`; `NaN` equals nothing. -/
def strictEq : JSValue → JSValue → Bool
  | num x, num y => decide (x = y)
  | null, null => true
  | _, _ => false

end JSValue

/-! ## `Number.parseInt` without a radix argument -/

/-- StrWhiteSpaceChar of ECMAScript, by code point. -/
def isStrWhiteSpaceChar (c : Char) : Bool :=
  let n := c.toNat
  n == 9 || n == 10 || n == 11 || n == 12 || n == 13 || n == 32 || n == 160 ||
  n == 5760 || (decide (8192 ≤ n) && decide (n ≤ 8202)) || n == 8232 ||
  n == 8233 || n == 8239 || n == 8287 || n == 12288 || n == 65279

/-- The value of a character as a digit of the given radix (10 or 16). -/
def digitValue (radix : Nat) (c : Char) : Option Nat :=
  let n := c.toNat
  if 48 ≤ n ∧ n ≤ 57 then some (n - 48)
  else if radix = 16 ∧ 97 ≤ n ∧ n ≤ 102 then some (n - 87)
  else if radix = 16 ∧ 65 ≤ n ∧ n ≤ 70 then some (n - 55)
  else none

/-- Reads the longest prefix of digits; `none` when there is no digit. -/
def readDigits (radix : Nat) : List Char → Option Nat → Option Nat
  | [], acc => acc
  | c :: cs, acc =>
    match digitValue radix c with
    | some d => readDigits radix cs (some (acc.getD 0 * radix + d))
    | none => acc

/-- The built-in `Number.parseInt(text)`: leading white space is skipped, a
sign is read, a `0x` prefix selects radix 16, and the longest run of digits is
the result; no digit at all gives `NaN`. -/
def parseInt (text : String) : JSValue :=
  let s := text.toList.dropWhile isStrWhiteSpaceChar
  let negative := s.head? == some (Char.ofNat 45)
  let s := if s.head? == some (Char.ofNat 43) || s.head? == some (Char.ofNat 45)
    then s.drop 1 else s
  let hex := s.take 2 == [Char.ofNat 48, Char.ofNat 120] ||
    s.take 2 == [Char.ofNat 48, Char.ofNat 88]
  let s := if hex then s.drop 2 else s
  match readDigits (if hex then 16 else 10) s none with
  | none => JSValue.nan
  | some n => JSValue.num (if negative then -(n : Int) else (n : Int))

/-! ## Data model -/

/-- The `settings` object (lines 4-11, 249-256). -/
structure Settings where
  workDuration : JSValue
  shortBreakDuration : JSValue
  longBreakDuration : JSValue
  longBreakAfter : JSValue
  soundAlert : Bool
  autoStart : Bool
  deriving DecidableEq, Repr

/-- The default settings of the constructor (lines 4-11). -/
def defaultSettings : Settings :=
  { workDuration := .num 25
    shortBreakDuration := .num 5
    longBreakDuration := .num 15
    longBreakAfter := .num 4
    soundAlert := true
    autoStart := false }

/-- A number as JSON text holds it: JSON has no `NaN`, `JSON.stringify` writes
`null` for it. -/
inductive StoredNumber where
  | null
  | num (i : Int)
  deriving DecidableEq, Repr

/-- What `JSON.parse` yields for the six settings keys of a stored text: each
key is absent or present.  A parsed value that is not an object (a number,
`null`, an array) spreads no settings key and is the record with all keys
absent.  Keys holding strings, fractions or nested values are outside this
model. -/
structure StoredRecord where
  workDuration : Option StoredNumber
  shortBreakDuration : Option StoredNumber
  longBreakDuration : Option StoredNumber
  longBreakAfter : Option StoredNumber
  soundAlert : Option Bool
  autoStart : Option Bool
  deriving DecidableEq, Repr

/-- The string stored under `"pomodoroSettings"`, up to what `loadSettings`
can tell apart: the empty string (falsy), a text `JSON.parse` rejects, or a
text it parses. -/
inductive StoredText where
  | empty
  | malformed
  | json (r : StoredRecord)
  deriving DecidableEq, Repr

/-- What a registered timer runs when it fires: the countdown callback of
`setInterval` (lines 83-91), the delayed `startTimer` (lines 135-137), or the
removal of the `pulse` class (lines 142-144). -/
inductive TimerKind where
  | tick
  | autoStart
  | pulse
  deriving DecidableEq, Repr

/-- An entry of the browser's timer table. `setInterval` and `setTimeout` draw
their handles from one counter. -/
structure Timer where
  id : Nat
  kind : TimerKind
  deriving DecidableEq, Repr

/-- The fields of a `PomodoroTimer` object (lines 4-18), the browser state it
reads and writes, and one counter of instrumentation. -/
structure PomodoroTimer where
  settings : Settings
  currentMode : String
  timeLeft : JSValue
  isRunning : Bool
  completedPomodoros : Nat
  timerInterval : Option Nat
  -- the `localStorage` entry `"pomodoroSettings"`; `none` when `getItem` returns `null`
  localStorage : Option StoredText
  -- the timers registered and not yet cleared or fired
  timers : List Timer
  -- the handle the next `setInterval` or `setTimeout` returns
  nextTimerId : Nat
  -- instrumentation: how many times `completeSession` has been entered
  completeSessionCalls : Nat
  deriving DecidableEq, Repr

/-- The exception `JSON.parse` throws. -/
inductive JSError where
  | syntaxError
  deriving DecidableEq, Repr

/-! ## Methods -/

/-- `clearInterval(handle)`: the entry with that handle is removed; `null`
clears nothing. -/
def clearInterval (handle : Option Nat) (timers : List Timer) : List Timer :=
  match handle with
  | none => timers
  | some h => timers.filter (fun t => t.id != h)

/-- `getCurrentModeDuration` (lines 177-188). -/
def getCurrentModeDuration (st : PomodoroTimer) : JSValue :=
  if st.currentMode = "work" then st.settings.workDuration
  else if st.currentMode = "short" then st.settings.shortBreakDuration
  else if st.currentMode = "long" then st.settings.longBreakDuration
  else st.settings.workDuration

/-- `startTimer` (lines 77-93): registers the countdown interval unless the
timer is running. -/
def startTimer (st : PomodoroTimer) : PomodoroTimer :=
  if !st.isRunning then
    { st with
      isRunning := true
      timerInterval := some st.nextTimerId
      timers := st.timers ++ [⟨st.nextTimerId, .tick⟩]
      nextTimerId := st.nextTimerId + 1 }
  else st

/-- `pauseTimer` (lines 95-102). -/
def pauseTimer (st : PomodoroTimer) : PomodoroTimer :=
  if st.isRunning then
    { st with
      isRunning := false
      timers := clearInterval st.timerInterval st.timers }
  else st

/-- `resetTimer` (lines 104-111). -/
def resetTimer (st : PomodoroTimer) : PomodoroTimer :=
  let st := pauseTimer st
  { st with timeLeft := (getCurrentModeDuration st).mul (.num 60) }

/-- `getNextMode` (lines 147-158). -/
def getNextMode (st : PomodoroTimer) : String :=
  if st.currentMode = "work" then
    if ((JSValue.num st.completedPomodoros).rem st.settings.longBreakAfter).strictEq (.num 0)
    then "long" else "short"
  else "work"

/-- `switchMode` (lines 160-175). -/
def switchMode (mode : String) (st : PomodoroTimer) : PomodoroTimer :=
  let st := if st.isRunning then pauseTimer st else st
  let st := { st with currentMode := mode }
  { st with timeLeft := (getCurrentModeDuration st).mul (.num 60) }

/-- `setTimeout(callback, delay)`: registers a one-shot timer. -/
def setTimeout (kind : TimerKind) (st : PomodoroTimer) : PomodoroTimer :=
  { st with
    timers := st.timers ++ [⟨st.nextTimerId, kind⟩]
    nextTimerId := st.nextTimerId + 1 }

/-- `completeSession` (lines 113-145). The call of `playAlert` (lines 117-119)
touches the audio element only and is left out. -/
def completeSession (st : PomodoroTimer) : PomodoroTimer :=
  let st := { st with completeSessionCalls := st.completeSessionCalls + 1 }
  let st := pauseTimer st
  let st := if st.currentMode = "work"
    then { st with completedPomodoros := st.completedPomodoros + 1 } else st
  let nextMode := getNextMode st
  let st := switchMode nextMode st
  let st := if st.settings.autoStart then setTimeout .autoStart st else st
  setTimeout .pulse st

/-- The callback given to `setInterval` (lines 83-91). -/
def tick (st : PomodoroTimer) : PomodoroTimer :=
  let st := { st with timeLeft := st.timeLeft.dec }
  if st.timeLeft.le (.num 0) then completeSession st else st

/-- The browser fires the interval with the given handle: its callback runs
when the interval is still registered, and nothing happens otherwise. -/
def fireInterval (id : Nat) (st : PomodoroTimer) : PomodoroTimer :=
  if st.timers.any (fun t => t.id == id && t.kind == .tick) then tick st else st

/-- The browser fires the timeout with the given handle: it leaves the table
and its callback runs; nothing happens when no such timeout is pending. -/
def fireTimeout (id : Nat) (st : PomodoroTimer) : PomodoroTimer :=
  match st.timers.find? (fun t => t.id == id && t.kind != .tick) with
  | none => st
  | some t =>
    let st := { st with timers := st.timers.erase t }
    match t.kind with
    | .autoStart => startTimer st
    | _ => st

/-- The array `errors` built by `validateSettings` (lines 276-289). -/
def validateSettingsErrors (settings : Settings) : List String :=
  let errors : List String := []
  let errors :=
    if settings.workDuration.lt (.num 1) || settings.workDuration.gt (.num 60)
    then errors ++ ["Work duration must be between 1 and 60 minutes"] else errors
  let errors :=
    if settings.shortBreakDuration.lt (.num 1) || settings.shortBreakDuration.gt (.num 30)
    then errors ++ ["Short break must be between 1 and 30 minutes"] else errors
  let errors :=
    if settings.longBreakDuration.lt (.num 1) || settings.longBreakDuration.gt (.num 60)
    then errors ++ ["Long break must be between 1 and 60 minutes"] else errors
  let errors :=
    if settings.longBreakAfter.lt (.num 2) || settings.longBreakAfter.gt (.num 10)
    then errors ++ ["Long break interval must be between 2 and 10 pomodoros"] else errors
  errors

/-- The value `validateSettings` returns (lines 291-296). -/
def validateSettings (settings : Settings) : Bool :=
  if (validateSettingsErrors settings).length > 0 then false else true

/-- The text `validateSettings` passes to `alert` (line 292), if any. -/
def validateSettingsAlert (settings : Settings) : Option String :=
  if (validateSettingsErrors settings).length > 0 then
    some ("Please fix the following errors:\n" ++
      String.intercalate "\n" (validateSettingsErrors settings))
  else none

/-- How `JSON.stringify` writes a numeric field. -/
def stringifyNumber : JSValue → StoredNumber
  | .num i => .num i
  | _ => .null

/-- `JSON.stringify(this.settings)`, as the record its text parses to. -/
def stringifySettings (s : Settings) : StoredRecord :=
  { workDuration := some (stringifyNumber s.workDuration)
    shortBreakDuration := some (stringifyNumber s.shortBreakDuration)
    longBreakDuration := some (stringifyNumber s.longBreakDuration)
    longBreakAfter := some (stringifyNumber s.longBreakAfter)
    soundAlert := some s.soundAlert
    autoStart := some s.autoStart }

/-- `saveSettingsToStorage` (lines 307-309). -/
def saveSettingsToStorage (st : PomodoroTimer) : PomodoroTimer :=
  { st with localStorage := some (.json (stringifySettings st.settings)) }

/-- The value of the fields of a settings form (lines 250-255 read them). -/
structure SettingsForm where
  workDuration : String
  shortBreakDuration : String
  longBreakDuration : String
  longBreakAfter : String
  soundAlert : Bool
  autoStart : Bool
  deriving DecidableEq, Repr

/-- The object `newSettings` built from the form (lines 249-256). -/
def newSettings (form : SettingsForm) : Settings :=
  { workDuration := parseInt form.workDuration
    shortBreakDuration := parseInt form.shortBreakDuration
    longBreakDuration := parseInt form.longBreakDuration
    longBreakAfter := parseInt form.longBreakAfter
    soundAlert := form.soundAlert
    autoStart := form.autoStart }

/-- `saveSettings` from line 258 on, given the candidate `newSettings`. -/
def saveSettings (candidate : Settings) (st : PomodoroTimer) : PomodoroTimer :=
  if validateSettings candidate then
    let st := { st with settings := candidate }
    let st := saveSettingsToStorage st
    if !st.isRunning then
      { st with timeLeft := (getCurrentModeDuration st).mul (.num 60) }
    else st
  else st

/-- `saveSettings(e)` (lines 245-273) on a submitted form. -/
def submitSettings (form : SettingsForm) (st : PomodoroTimer) : PomodoroTimer :=
  saveSettings (newSettings form) st

/-- A stored number as the value `JSON.parse` gives it. -/
def StoredNumber.toJSValue : StoredNumber → JSValue
  | .null => .null
  | .num i => .num i

/-- The spread `{ ...settings, ...parsed }` (line 302): a key present in the
parsed record overrides. -/
def mergeSettings (s : Settings) (r : StoredRecord) : Settings :=
  { workDuration := (r.workDuration.map StoredNumber.toJSValue).getD s.workDuration
    shortBreakDuration := (r.shortBreakDuration.map StoredNumber.toJSValue).getD s.shortBreakDuration
    longBreakDuration := (r.longBreakDuration.map StoredNumber.toJSValue).getD s.longBreakDuration
    longBreakAfter := (r.longBreakAfter.map StoredNumber.toJSValue).getD s.longBreakAfter
    soundAlert := r.soundAlert.getD s.soundAlert
    autoStart := r.autoStart.getD s.autoStart }

/-- `loadSettings` (lines 299-305). `JSON.parse` is called outside any `try`,
so its exception leaves the method. -/
def loadSettings (st : PomodoroTimer) : Except JSError PomodoroTimer :=
  match st.localStorage with
  | none => .ok st
  | some .empty => .ok st
  | some .malformed => .error .syntaxError
  | some (.json r) => .ok { st with settings := mergeSettings st.settings r }

/-- The fields as the constructor assigns them (lines 4-18), on a freshly
loaded page whose `localStorage` holds the given entry. -/
def freshTimer (stored : Option StoredText) : PomodoroTimer :=
  { settings := defaultSettings
    currentMode := "work"
    timeLeft := defaultSettings.workDuration.mul (.num 60)
    isRunning := false
    completedPomodoros := 0
    timerInterval := none
    localStorage := stored
    timers := []
    nextTimerId := 1
    completeSessionCalls := 0 }

/-- The constructor (lines 2-40): the fields are assigned, then `loadSettings`
runs (line 36). -/
def PomodoroTimer.create (stored : Option StoredText) : Except JSError PomodoroTimer :=
  loadSettings (freshTimer stored)

/-! ## Vocabulary of the specification -/

/-- The modes of the specification: Work, ShortBreak, LongBreak. -/
inductive Mode where
  | work
  | short
  | long
  deriving DecidableEq, Repr

/-- The string by which the program names a mode (lines 14, 151-156, 179-183). -/
def Mode.name : Mode → String
  | .work => "work"
  | .short => "short"
  | .long => "long"

/-- The `durationFor(mode, settings)` of the specification: the settings field
a mode selects, in minutes. -/
def durationFor : Mode → Settings → JSValue
  | .work, s => s.workDuration
  | .short, s => s.shortBreakDuration
  | .long, s => s.longBreakDuration

/-- An integer between two bounds; `NaN` and `null` are in no range. -/
def JSValue.inRange (v : JSValue) (lo hi : Int) : Bool :=
  match v with
  | .num i => decide (lo ≤ i) && decide (i ≤ hi)
  | _ => false

/-- The constraints of the specification's data model on the numeric settings:
`workDuration` in 1-60, `shortBreakDuration` in 1-30, `longBreakDuration` in
1-60, `longBreakAfter` in 2-10. -/
def Settings.valid (s : Settings) : Bool :=
  s.workDuration.inRange 1 60 && s.shortBreakDuration.inRange 1 30 &&
  s.longBreakDuration.inRange 1 60 && s.longBreakAfter.inRange 2 10

/-! ## The progress ring -/

/-- The value `progress` that `updateProgressRing` computes (lines 212-213),
as an exact fraction; `none` when an operand is `NaN` or `totalTime` is 0, where
the quotient is not a finite number. -/
def updateProgressRing (st : PomodoroTimer) : Option ℚ :=
  match ((getCurrentModeDuration st).mul (.num 60)).toNumber, st.timeLeft.toNumber with
  | some totalTime, some timeLeft =>
    if totalTime = 0 then none else some (((totalTime : ℚ) - (timeLeft : ℚ)) / (totalTime : ℚ))
  | _, _ => none

/-- The `progress` drawn by the call of `updateProgressRing` inside the
interval callback (line 86), after the decrement and before the test. -/
def tickProgress (st : PomodoroTimer) : Option ℚ :=
  updateProgressRing { st with timeLeft := st.timeLeft.dec }

/-! ## Runs -/

/-- What can happen to a timer: the user interface calls a method, or the
browser fires a registered timer. -/
inductive Action where
  | startTimer
  | pauseTimer
  | resetTimer
  | switchMode (mode : Mode)
  | tick
  | completeSession
  | saveSettings (candidate : Settings)
  | fireInterval (id : Nat)
  | fireTimeout (id : Nat)
  deriving DecidableEq, Repr

/-- The effect of one action. -/
def Action.apply : Action → PomodoroTimer → PomodoroTimer
  | .startTimer, st => Pomodoro.startTimer st
  | .pauseTimer, st => Pomodoro.pauseTimer st
  | .resetTimer, st => Pomodoro.resetTimer st
  | .switchMode mode, st => Pomodoro.switchMode mode.name st
  | .tick, st => Pomodoro.tick st
  | .completeSession, st => Pomodoro.completeSession st
  | .saveSettings candidate, st => Pomodoro.saveSettings candidate st
  | .fireInterval id, st => Pomodoro.fireInterval id st
  | .fireTimeout id, st => Pomodoro.fireTimeout id st

/-- The state after a sequence of actions. -/
def runActions : List Action → PomodoroTimer → PomodoroTimer
  | [], st => st
  | a :: rest, st => runActions rest (a.apply st)

/-- One step of a countdown run: `startTimer`, `pauseTimer`, `resetTimer`,
`switchMode`, a tick while running, or `saveSettings` with a valid candidate;
the flag tells whether `saveSettings` may come while the timer is running. -/
def Action.countdownStep (saveWhileRunning : Bool) (a : Action) (st : PomodoroTimer) : Bool :=
  match a with
  | .startTimer => true
  | .pauseTimer => true
  | .resetTimer => true
  | .switchMode _ => true
  | .tick => st.isRunning
  | .saveSettings candidate => candidate.valid && (saveWhileRunning || !st.isRunning)
  | _ => false

/-- A sequence of actions is a countdown run from a state. -/
def countdownRun (saveWhileRunning : Bool) : List Action → PomodoroTimer → Bool
  | [], _ => true
  | a :: rest, st =>
    a.countdownStep saveWhileRunning st && countdownRun saveWhileRunning rest (a.apply st)

/-- The bound `0 <= timeLeft <= durationFor(currentMode) * 60`, as the program
would test it. -/
def withinDuration (st : PomodoroTimer) : Bool :=
  (JSValue.num 0).le st.timeLeft &&
  st.timeLeft.le ((getCurrentModeDuration st).mul (.num 60))

/-- The registered timers that run the countdown callback. -/
def tickSources (st : PomodoroTimer) : List Timer :=
  st.timers.filter (fun t => t.kind == .tick)

/-- The number of active tick sources. -/
def activeTickSources (st : PomodoroTimer) : Nat :=
  (tickSources st).length

/-! ## Predicates used in the statements -/

/-- The messages the specification asks for, one per violated field, in field
order, for a candidate whose numeric fields are the integers `w`, `s`, `l`,
`a`. -/
def violatedFieldMessages (w s l a : Int) : List String :=
  (if 1 ≤ w ∧ w ≤ 60 then [] else ["Work duration must be between 1 and 60 minutes"]) ++
  (if 1 ≤ s ∧ s ≤ 30 then [] else ["Short break must be between 1 and 30 minutes"]) ++
  (if 1 ≤ l ∧ l ≤ 60 then [] else ["Long break must be between 1 and 60 minutes"]) ++
  (if 2 ≤ a ∧ a ≤ 10 then [] else ["Long break interval must be between 2 and 10 pomodoros"])

/-- A numeric field holding an integer outside the interval. -/
def JSValue.outside (v : JSValue) (lo hi : Int) : Bool :=
  match v with
  | .num i => decide (i < lo) || decide (hi < i)
  | _ => false

/-- The tick sources are the interval held in `timerInterval` when the timer
is running, and none otherwise. -/
def SingleSource (st : PomodoroTimer) : Prop :=
  (st.isRunning = true → ∃ h, st.timerInterval = some h ∧ tickSources st = [⟨h, .tick⟩]) ∧
  (st.isRunning = false → tickSources st = [])

/-- The settings are valid, the current mode is one of the three, and
`timeLeft` is an integer between 1 and the duration of the mode in seconds. -/
def CountdownInv (st : PomodoroTimer) : Prop :=
  st.settings.valid = true ∧
  ∃ (M : Mode) (t : Int) (d : Nat), st.currentMode = M.name ∧ st.timeLeft = .num t ∧
    durationFor M st.settings = .num d ∧ 1 ≤ t ∧ t ≤ (d : Int) * 60

/-! ## Shared lemmas -/

theorem completeSession_settings (st : PomodoroTimer) :
    (completeSession st).settings = st.settings := by
  simp only [completeSession, switchMode, pauseTimer, setTimeout]
  split_ifs <;> rfl

theorem completeSession_break (st : PomodoroTimer) (h : st.currentMode ≠ "work") :
    (completeSession st).currentMode = "work" ∧
    (completeSession st).completedPomodoros = st.completedPomodoros := by
  simp only [completeSession, switchMode, pauseTimer, setTimeout, getNextMode]
  split_ifs <;> simp_all

theorem rem_strictEq_zero (c N : Nat) (hN : 2 ≤ N) :
    ((JSValue.num c).rem (.num N)).strictEq (.num 0) = decide (c % N = 0) := by
  have h0 : (N : Int) ≠ 0 := by omega
  simp only [JSValue.rem, JSValue.toNumber, h0, if_false, JSValue.strictEq]
  rw [← Int.ofNat_tmod]
  have e : ((↑(c % N) : Int) = 0) = (c % N = 0) := by norm_cast
  simp only [e]

theorem completeSession_work (st : PomodoroTimer) (N : Nat) (hN : 2 ≤ N)
    (h : st.currentMode = "work") (hs : st.settings.longBreakAfter = .num N) :
    (completeSession st).currentMode
      = (if (st.completedPomodoros + 1) % N = 0 then "long" else "short") ∧
    (completeSession st).completedPomodoros = st.completedPomodoros + 1 := by
  have key := rem_strictEq_zero (st.completedPomodoros + 1) N hN
  simp only [completeSession, switchMode, pauseTimer, setTimeout, getNextMode]
  split_ifs <;> simp_all


theorem completeSession_pair (N : Nat) (hN : 2 ≤ N) (st : PomodoroTimer)
    (hmode : st.currentMode = "work") (hcount : st.completedPomodoros = 0)
    (hset : st.settings.longBreakAfter = .num N) (j : Nat) :
    (completeSession^[2 * j] st).currentMode = "work" ∧
    (completeSession^[2 * j] st).completedPomodoros = j ∧
    (completeSession^[2 * j] st).settings.longBreakAfter = .num N := by
  induction j with
  | zero => exact ⟨hmode, hcount, hset⟩
  | succ j ih =>
    obtain ⟨hm, hc, hs⟩ := ih
    have e : 2 * (j + 1) = (2 * j + 1) + 1 := by ring
    rw [e, Function.iterate_succ_apply', Function.iterate_succ_apply']
    have hw := completeSession_work _ N hN hm hs
    have hne : (completeSession (completeSession^[2 * j] st)).currentMode ≠ "work" := by
      rw [hw.1]; split_ifs <;> decide
    have hb := completeSession_break _ hne
    refine ⟨hb.1, ?_, ?_⟩
    · rw [hb.2, hw.2, hc]
    · rw [completeSession_settings, completeSession_settings, hs]

/-! ## C1: the cycle of modes -/

/-- C1. For `longBreakAfter = N` in `[2,10]`, from a state in Work mode with
`completedPomodoros = 0` (the initial state is one), the `k`-th Work completion
(the completion number `2k-1`) enters `long` exactly when `k mod N = 0` and
`short` otherwise, with `completedPomodoros = k`, and the break completion
that follows returns to `work` with the count still `k`; any completion in a
mode other than `work` returns to `work` and keeps the count; with the
defaults the modes run work, short, work, short, work, short, work, long and
the count ends at 4. -/
theorem long_break_every_nth_work_completion :
    (∀ (N : Nat) (st : PomodoroTimer) (k : Nat), 2 ≤ N → N ≤ 10 →
      st.currentMode = "work" → st.completedPomodoros = 0 →
      st.settings.longBreakAfter = .num N → 1 ≤ k →
      (completeSession^[2 * k - 1] st).currentMode
        = (if k % N = 0 then "long" else "short") ∧
      (completeSession^[2 * k - 1] st).completedPomodoros = k ∧
      (completeSession^[2 * k] st).currentMode = "work" ∧
      (completeSession^[2 * k] st).completedPomodoros = k) ∧
    (∀ st : PomodoroTimer, st.currentMode ≠ "work" →
      (completeSession st).currentMode = "work" ∧
      (completeSession st).completedPomodoros = st.completedPomodoros) ∧
    (List.range 8).map (fun i => (completeSession^[i] (freshTimer none)).currentMode)
      = ["work", "short", "work", "short", "work", "short", "work", "long"] ∧
    (completeSession^[7] (freshTimer none)).completedPomodoros = 4 := by
  refine ⟨?_, completeSession_break, by decide, by decide⟩
  intro N st k hN _ hmode hcount hset hk
  obtain ⟨j, rfl⟩ : ∃ j, k = j + 1 := ⟨k - 1, by omega⟩
  have e : 2 * (j + 1) - 1 = 2 * j + 1 := by omega
  obtain ⟨hm, hc, hs⟩ := completeSession_pair N hN st hmode hcount hset j
  obtain ⟨hm2, hc2, _⟩ := completeSession_pair N hN st hmode hcount hset (j + 1)
  have hw := completeSession_work _ N hN hm hs
  rw [e, Function.iterate_succ_apply']
  rw [hc] at hw
  exact ⟨hw.1, hw.2, hm2, hc2⟩

theorem long_break_every_nth_work_completion_witness :
    (completeSession^[2 * 4 - 1] (freshTimer none)).currentMode
        = (if 4 % 4 = 0 then "long" else "short") ∧
      (completeSession^[2 * 4 - 1] (freshTimer none)).completedPomodoros = 4 ∧
      (completeSession^[2 * 4] (freshTimer none)).currentMode = "work" ∧
      (completeSession^[2 * 4] (freshTimer none)).completedPomodoros = 4 :=
  long_break_every_nth_work_completion.1 4 (freshTimer none) 4 (by decide) (by decide)
    (by decide) (by decide) (by decide) (by decide)

/-! ## C2: one completion after `durationFor * 60` ticks -/

theorem inRange_num {v : JSValue} {lo hi : Int} (h : v.inRange lo hi = true) :
    ∃ i : Int, v = .num i ∧ lo ≤ i ∧ i ≤ hi := by
  cases v with
  | nan => simp [JSValue.inRange] at h
  | null => simp [JSValue.inRange] at h
  | num i => exact ⟨i, rfl, by simpa [JSValue.inRange] using h⟩

theorem durationFor_valid (M : Mode) (s : Settings) (h : s.valid = true) :
    ∃ d : Nat, durationFor M s = .num d ∧ 1 ≤ d ∧ d ≤ 60 := by
  simp only [Settings.valid, Bool.and_eq_true] at h
  obtain ⟨⟨⟨hw, hs⟩, hl⟩, _⟩ := h
  cases M with
  | work =>
    obtain ⟨i, hi, h1, h2⟩ := inRange_num hw
    exact ⟨i.toNat, by simp only [durationFor, hi]; congr 1; omega, by omega, by omega⟩
  | short =>
    obtain ⟨i, hi, h1, h2⟩ := inRange_num hs
    exact ⟨i.toNat, by simp only [durationFor, hi]; congr 1; omega, by omega, by omega⟩
  | long =>
    obtain ⟨i, hi, h1, h2⟩ := inRange_num hl
    exact ⟨i.toNat, by simp only [durationFor, hi]; congr 1; omega, by omega, by omega⟩

theorem getCurrentModeDuration_name (M : Mode) (st : PomodoroTimer)
    (h : st.currentMode = M.name) :
    getCurrentModeDuration st = durationFor M st.settings := by
  cases M <;> simp [getCurrentModeDuration, durationFor, Mode.name, h]

theorem fireInterval_countdown (id n : Nat) (st : PomodoroTimer)
    (hrun : st.timers.any (fun t => t.id == id && t.kind == .tick) = true)
    (ht : st.timeLeft = .num n) (k : Nat) (hk : k < n) :
    (fireInterval id)^[k] st = { st with timeLeft := .num ((n : Int) - k) } := by
  induction k with
  | zero =>
    simp only [Function.iterate_zero, id_eq, Nat.cast_zero, sub_zero, ← ht]
  | succ k ih =>
    rw [Function.iterate_succ_apply', ih (by omega)]
    have hle : ¬ ((n : Int) - k - 1 ≤ 0) := by omega
    simp only [fireInterval, hrun, if_true, tick, JSValue.dec, JSValue.toNumber, JSValue.le,
      decide_eq_true_eq, hle, if_false]
    congr 2
    push_cast
    ring

theorem switchMode_isRunning (mode : String) (st : PomodoroTimer) :
    (switchMode mode st).isRunning = false := by
  simp only [switchMode, pauseTimer]
  split_ifs <;> simp_all

theorem switchMode_timeLeft (M : Mode) (st : PomodoroTimer) :
    (switchMode M.name st).timeLeft = (durationFor M st.settings).mul (.num 60) := by
  have h : ∀ s : PomodoroTimer, s.currentMode = M.name →
      getCurrentModeDuration s = durationFor M s.settings :=
    fun s hs => getCurrentModeDuration_name M s hs
  simp only [switchMode, pauseTimer]
  split_ifs <;> rw [h _ rfl]

theorem fireInterval_stale (id : Nat) (st : PomodoroTimer)
    (h : st.timers.any (fun t => t.id == id && t.kind == .tick) = false) (j : Nat) :
    (fireInterval id)^[j] st = st := by
  induction j with
  | zero => rfl
  | succ j ih =>
    rw [Function.iterate_succ_apply', ih]
    simp [fireInterval, h]

theorem completeSession_clears (id : Nat) (st : PomodoroTimer)
    (hrun : st.isRunning = true) (hid : st.timerInterval = some id) :
    (completeSession st).isRunning = false ∧
    (completeSession st).completeSessionCalls = st.completeSessionCalls + 1 ∧
    (completeSession st).timers.any (fun t => t.id == id && t.kind == .tick) = false := by
  simp only [completeSession, switchMode, pauseTimer, setTimeout, clearInterval, hrun, hid]
  split_ifs <;> simp_all

/-- C2. With valid settings, after `switchMode(M)` and `startTimer` the
countdown interval has a handle `id`, and when nothing but that interval
fires: after each of the first `durationFor(M)*60 - 1` ticks `completeSession`
has not been entered, the timer is running and `timeLeft` has gone down by one
per tick; the tick number `durationFor(M)*60` enters `completeSession` exactly
once and leaves the timer not running with the interval cleared, so that any
later firing of that handle changes nothing. -/
theorem one_completion_after_duration_ticks (st0 : PomodoroTimer) (M : Mode)
    (hv : st0.settings.valid = true) :
    ∃ d id : Nat, durationFor M st0.settings = .num d ∧ 1 ≤ d ∧
      (startTimer (switchMode M.name st0)).timerInterval = some id ∧
      (⟨id, .tick⟩ : Timer) ∈ (startTimer (switchMode M.name st0)).timers ∧
      (∀ k : Nat, k < d * 60 →
        ((fireInterval id)^[k] (startTimer (switchMode M.name st0))).completeSessionCalls
          = st0.completeSessionCalls ∧
        ((fireInterval id)^[k] (startTimer (switchMode M.name st0))).isRunning = true ∧
        ((fireInterval id)^[k] (startTimer (switchMode M.name st0))).timeLeft
          = .num ((d : Int) * 60 - k)) ∧
      ((fireInterval id)^[d * 60] (startTimer (switchMode M.name st0))).completeSessionCalls
        = st0.completeSessionCalls + 1 ∧
      ((fireInterval id)^[d * 60] (startTimer (switchMode M.name st0))).isRunning = false ∧
      (⟨id, .tick⟩ : Timer) ∉
        ((fireInterval id)^[d * 60] (startTimer (switchMode M.name st0))).timers ∧
      (∀ j : Nat, (fireInterval id)^[d * 60 + j] (startTimer (switchMode M.name st0))
        = (fireInterval id)^[d * 60] (startTimer (switchMode M.name st0))) := by
  obtain ⟨d, hd, hd1, _⟩ := durationFor_valid M st0.settings hv
  refine ⟨d, st0.nextTimerId, hd, hd1, ?_⟩
  set st1 := startTimer (switchMode M.name st0) with hst1
  have hnr := switchMode_isRunning M.name st0
  have htl : (switchMode M.name st0).timeLeft = .num ((d * 60 : Nat) : Int) := by
    rw [switchMode_timeLeft, hd]
    simp [JSValue.mul, JSValue.toNumber]
  have hnext : (switchMode M.name st0).nextTimerId = st0.nextTimerId := by
    simp only [switchMode, pauseTimer]; split_ifs <;> rfl
  have hcalls : (switchMode M.name st0).completeSessionCalls = st0.completeSessionCalls := by
    simp only [switchMode, pauseTimer]; split_ifs <;> rfl
  have e1 : st1.timerInterval = some st0.nextTimerId := by
    simp [hst1, startTimer, hnr, hnext]
  have e2 : (⟨st0.nextTimerId, .tick⟩ : Timer) ∈ st1.timers := by
    simp [hst1, startTimer, hnr, hnext]
  have e3 : st1.isRunning = true := by simp [hst1, startTimer, hnr]
  have e4 : st1.timeLeft = .num ((d * 60 : Nat) : Int) := by
    simp only [hst1, startTimer, hnr]; simpa using htl
  have e5 : st1.completeSessionCalls = st0.completeSessionCalls := by
    simp only [hst1, startTimer, hnr]; simpa using hcalls
  have hany : st1.timers.any (fun t => t.id == st0.nextTimerId && t.kind == .tick) = true := by
    rw [List.any_eq_true]
    exact ⟨_, e2, by simp⟩
  have hcount := fireInterval_countdown st0.nextTimerId (d * 60) st1 hany e4
  -- the last tick
  have hlast : (fireInterval st0.nextTimerId)^[d * 60] st1
      = completeSession { st1 with timeLeft := .num 0 } := by
    obtain ⟨n, hn⟩ : ∃ n, d * 60 = n + 1 := ⟨d * 60 - 1, by omega⟩
    rw [hn, Function.iterate_succ_apply', hcount n (by omega)]
    have hz : ((d * 60 : Nat) : Int) - n - 1 = 0 := by omega
    simp only [fireInterval, hany, if_true, tick, JSValue.dec, JSValue.toNumber, JSValue.le,
      hz, le_refl, decide_True]
  obtain ⟨c1, c2, c3⟩ := completeSession_clears st0.nextTimerId
    { st1 with timeLeft := .num 0 } e3 e1
  refine ⟨e1, e2, ?_, ?_, ?_, ?_, ?_⟩
  · intro k hk
    rw [hcount k hk]
    refine ⟨e5, e3, ?_⟩
    simp
  · rw [hlast, c2]; exact congrArg (· + 1) e5
  · rw [hlast, c1]
  · rw [hlast]
    intro hmem
    have := (List.any_eq_false.mp c3) _ hmem
    simp at this
  · intro j
    rw [Nat.add_comm, Function.iterate_add_apply, hlast]
    exact fireInterval_stale _ _ c3 j

theorem one_completion_after_duration_ticks_witness :
    ∃ d id : Nat, durationFor .short (freshTimer none).settings = .num d ∧ 1 ≤ d ∧
      (startTimer (switchMode Mode.short.name (freshTimer none))).timerInterval = some id ∧
      (⟨id, .tick⟩ : Timer) ∈ (startTimer (switchMode Mode.short.name (freshTimer none))).timers ∧
      (∀ k : Nat, k < d * 60 →
        ((fireInterval id)^[k]
          (startTimer (switchMode Mode.short.name (freshTimer none)))).completeSessionCalls
          = (freshTimer none).completeSessionCalls ∧
        ((fireInterval id)^[k]
          (startTimer (switchMode Mode.short.name (freshTimer none)))).isRunning = true ∧
        ((fireInterval id)^[k]
          (startTimer (switchMode Mode.short.name (freshTimer none)))).timeLeft
          = .num ((d : Int) * 60 - k)) ∧
      ((fireInterval id)^[d * 60]
        (startTimer (switchMode Mode.short.name (freshTimer none)))).completeSessionCalls
        = (freshTimer none).completeSessionCalls + 1 ∧
      ((fireInterval id)^[d * 60]
        (startTimer (switchMode Mode.short.name (freshTimer none)))).isRunning = false ∧
      (⟨id, .tick⟩ : Timer) ∉
        ((fireInterval id)^[d * 60]
          (startTimer (switchMode Mode.short.name (freshTimer none)))).timers ∧
      (∀ j : Nat, (fireInterval id)^[d * 60 + j]
          (startTimer (switchMode Mode.short.name (freshTimer none)))
        = (fireInterval id)^[d * 60]
          (startTimer (switchMode Mode.short.name (freshTimer none)))) :=
  one_completion_after_duration_ticks (freshTimer none) .short (by decide)

/-! ## C3: `switchMode` -/

/-- C3. For valid settings, any prior state (running or not) and any mode `M`,
after `switchMode(M)` the current mode is `M`, `timeLeft` is the product
`durationFor(M, S) * 60` (an integer number of seconds, at least 60), the
timer is not running, and `completedPomodoros` and the settings are those of
the prior state. -/
theorem switchMode_resets_countdown (st : PomodoroTimer) (M : Mode)
    (hv : st.settings.valid = true) :
    (switchMode M.name st).currentMode = M.name ∧
    (switchMode M.name st).timeLeft = (durationFor M st.settings).mul (.num 60) ∧
    (∃ d : Nat, durationFor M st.settings = .num d ∧ 1 ≤ d ∧
      (switchMode M.name st).timeLeft = .num ((d : Int) * 60)) ∧
    (switchMode M.name st).isRunning = false ∧
    (switchMode M.name st).completedPomodoros = st.completedPomodoros ∧
    (switchMode M.name st).settings = st.settings := by
  obtain ⟨d, hd, hd1, _⟩ := durationFor_valid M st.settings hv
  refine ⟨?_, switchMode_timeLeft M st, ⟨d, hd, hd1, ?_⟩, switchMode_isRunning _ st, ?_, ?_⟩
  · rfl
  · rw [switchMode_timeLeft, hd]; rfl
  · simp only [switchMode, pauseTimer]; split_ifs <;> rfl
  · simp only [switchMode, pauseTimer]; split_ifs <;> rfl

theorem switchMode_resets_countdown_witness :
    (switchMode Mode.long.name (startTimer (freshTimer none))).currentMode = Mode.long.name ∧
    (switchMode Mode.long.name (startTimer (freshTimer none))).timeLeft
      = (durationFor .long (startTimer (freshTimer none)).settings).mul (.num 60) ∧
    (∃ d : Nat, durationFor .long (startTimer (freshTimer none)).settings = .num d ∧ 1 ≤ d ∧
      (switchMode Mode.long.name (startTimer (freshTimer none))).timeLeft
        = .num ((d : Int) * 60)) ∧
    (switchMode Mode.long.name (startTimer (freshTimer none))).isRunning = false ∧
    (switchMode Mode.long.name (startTimer (freshTimer none))).completedPomodoros
      = (startTimer (freshTimer none)).completedPomodoros ∧
    (switchMode Mode.long.name (startTimer (freshTimer none))).settings
      = (startTimer (freshTimer none)).settings :=
  switchMode_resets_countdown (startTimer (freshTimer none)) .long (by decide)

/-! ## C4: `validateSettings` -/

theorem validateSettingsErrors_int (w s l a : Int) (snd auto : Bool) :
    validateSettingsErrors ⟨.num w, .num s, .num l, .num a, snd, auto⟩
      = violatedFieldMessages w s l a := by
  have hw : (decide (w < 1) || decide (w > 60)) = !decide (1 ≤ w ∧ w ≤ 60) := by
    by_cases h1 : w < 1 <;> by_cases h2 : w > 60 <;> (simp [h1, h2]; try omega)
  have hs : (decide (s < 1) || decide (s > 30)) = !decide (1 ≤ s ∧ s ≤ 30) := by
    by_cases h1 : s < 1 <;> by_cases h2 : s > 30 <;> (simp [h1, h2]; try omega)
  have hl : (decide (l < 1) || decide (l > 60)) = !decide (1 ≤ l ∧ l ≤ 60) := by
    by_cases h1 : l < 1 <;> by_cases h2 : l > 60 <;> (simp [h1, h2]; try omega)
  have ha : (decide (a < 2) || decide (a > 10)) = !decide (2 ≤ a ∧ a ≤ 10) := by
    by_cases h1 : a < 2 <;> by_cases h2 : a > 10 <;> (simp [h1, h2]; try omega)
  simp only [validateSettingsErrors, violatedFieldMessages, JSValue.lt, JSValue.gt,
    JSValue.toNumber, hw, hs, hl, ha]
  by_cases c1 : 1 ≤ w ∧ w ≤ 60 <;> by_cases c2 : 1 ≤ s ∧ s ≤ 30 <;>
    by_cases c3 : 1 ≤ l ∧ l ≤ 60 <;> by_cases c4 : 2 ≤ a ∧ a ≤ 10 <;>
    simp [c1, c2, c3, c4]

theorem violatedFieldMessages_nil (w s l a : Int) :
    violatedFieldMessages w s l a = [] ↔
      (1 ≤ w ∧ w ≤ 60) ∧ (1 ≤ s ∧ s ≤ 30) ∧ (1 ≤ l ∧ l ≤ 60) ∧ (2 ≤ a ∧ a ≤ 10) := by
  unfold violatedFieldMessages
  by_cases c1 : 1 ≤ w ∧ w ≤ 60 <;> by_cases c2 : 1 ≤ s ∧ s ≤ 30 <;>
    by_cases c3 : 1 ≤ l ∧ l ≤ 60 <;> by_cases c4 : 2 ≤ a ∧ a ≤ 10 <;>
    simp [c1, c2, c3, c4]

theorem validateSettings_iff_no_error (c : Settings) :
    validateSettings c = true ↔ validateSettingsErrors c = [] := by
  unfold validateSettings
  cases validateSettingsErrors c <;> simp

theorem valid_fields (c : Settings) (h : c.valid = true) :
    ∃ w s l a : Int, c = ⟨.num w, .num s, .num l, .num a, c.soundAlert, c.autoStart⟩ ∧
      (1 ≤ w ∧ w ≤ 60) ∧ (1 ≤ s ∧ s ≤ 30) ∧ (1 ≤ l ∧ l ≤ 60) ∧ (2 ≤ a ∧ a ≤ 10) := by
  simp only [Settings.valid, Bool.and_eq_true] at h
  obtain ⟨⟨⟨hw, hs⟩, hl⟩, ha⟩ := h
  obtain ⟨w, ew, bw⟩ := inRange_num hw
  obtain ⟨s, es, bs⟩ := inRange_num hs
  obtain ⟨l, el, bl⟩ := inRange_num hl
  obtain ⟨a, ea, ba⟩ := inRange_num ha
  refine ⟨w, s, l, a, ?_, bw, bs, bl, ba⟩
  cases c
  simp_all

theorem validateSettings_of_valid (c : Settings) (h : c.valid = true) :
    validateSettings c = true := by
  obtain ⟨w, s, l, a, e, hb⟩ := valid_fields c h
  rw [e, validateSettings_iff_no_error, validateSettingsErrors_int, violatedFieldMessages_nil]
  exact hb

/-- C4. For a candidate whose four numeric fields are integers, the array
`errors` of `validateSettings` is the list with one message per violated field
in the order work, short break, long break, long-break interval; the function
returns `true` exactly when that list is empty, which is exactly when the four
fields are in range; a work duration of 0 or 61 is rejected, and one of 60 is
accepted when the other three fields are in range. -/
theorem validateSettings_lists_every_violation (w s l a : Int) (snd auto : Bool) :
    validateSettingsErrors ⟨.num w, .num s, .num l, .num a, snd, auto⟩
      = violatedFieldMessages w s l a ∧
    (validateSettings ⟨.num w, .num s, .num l, .num a, snd, auto⟩ = true ↔
      validateSettingsErrors ⟨.num w, .num s, .num l, .num a, snd, auto⟩ = []) ∧
    (validateSettings ⟨.num w, .num s, .num l, .num a, snd, auto⟩ = true ↔
      (1 ≤ w ∧ w ≤ 60) ∧ (1 ≤ s ∧ s ≤ 30) ∧ (1 ≤ l ∧ l ≤ 60) ∧ (2 ≤ a ∧ a ≤ 10)) ∧
    validateSettings ⟨.num 0, .num s, .num l, .num a, snd, auto⟩ = false ∧
    validateSettings ⟨.num 61, .num s, .num l, .num a, snd, auto⟩ = false ∧
    ((1 ≤ s ∧ s ≤ 30) → (1 ≤ l ∧ l ≤ 60) → (2 ≤ a ∧ a ≤ 10) →
      validateSettings ⟨.num 60, .num s, .num l, .num a, snd, auto⟩ = true) := by
  have key : ∀ w : Int, validateSettings ⟨.num w, .num s, .num l, .num a, snd, auto⟩ = true ↔
      (1 ≤ w ∧ w ≤ 60) ∧ (1 ≤ s ∧ s ≤ 30) ∧ (1 ≤ l ∧ l ≤ 60) ∧ (2 ≤ a ∧ a ≤ 10) := by
    intro w
    rw [validateSettings_iff_no_error, validateSettingsErrors_int, violatedFieldMessages_nil]
  refine ⟨validateSettingsErrors_int w s l a snd auto, validateSettings_iff_no_error _,
    key w, ?_, ?_, ?_⟩
  · rw [← Bool.not_eq_true, key]; omega
  · rw [← Bool.not_eq_true, key]; omega
  · intro hs hl ha
    rw [key]; omega

theorem validateSettings_lists_every_violation_witness :
    validateSettings ⟨.num 60, .num 5, .num 15, .num 4, true, false⟩ = true :=
  (validateSettings_lists_every_violation 25 5 15 4 true false).2.2.2.2.2
    (by decide) (by decide) (by decide)

/-! ## C5 and C10: candidates with a field that is not a number -/

theorem saveSettings_of_rejected (c : Settings) (st : PomodoroTimer)
    (h : validateSettings c = false) : saveSettings c st = st := by
  simp [saveSettings, h]

theorem push_eq_nil {c : Bool} {e : List String} {m : String}
    (h : (if c = true then e ++ [m] else e) = []) : e = [] ∧ c = false := by
  cases c <;> simp_all

theorem validateSettings_iff_tests (c : Settings) :
    validateSettings c = true ↔
      (c.workDuration.lt (.num 1) || c.workDuration.gt (.num 60)) = false ∧
      (c.shortBreakDuration.lt (.num 1) || c.shortBreakDuration.gt (.num 30)) = false ∧
      (c.longBreakDuration.lt (.num 1) || c.longBreakDuration.gt (.num 60)) = false ∧
      (c.longBreakAfter.lt (.num 2) || c.longBreakAfter.gt (.num 10)) = false := by
  rw [validateSettings_iff_no_error]
  constructor
  · intro h
    unfold validateSettingsErrors at h
    obtain ⟨h3, c4⟩ := push_eq_nil h
    obtain ⟨h2, c3⟩ := push_eq_nil h3
    obtain ⟨h1, c2⟩ := push_eq_nil h2
    obtain ⟨_, c1⟩ := push_eq_nil h1
    exact ⟨c1, c2, c3, c4⟩
  · rintro ⟨c1, c2, c3, c4⟩
    simp only [validateSettingsErrors, c1, c2, c3, c4]
    rfl

theorem outside_test {v : JSValue} {lo hi : Int} (h : v.outside lo hi = true) :
    (v.lt (.num lo) || v.gt (.num hi)) = true := by
  cases v with
  | nan => simp [JSValue.outside] at h
  | null => simp [JSValue.outside] at h
  | num i => simpa [JSValue.outside, JSValue.lt, JSValue.gt, JSValue.toNumber] using h

/-- A candidate with an integer field outside its interval is rejected and
leaves the state as it was, whatever the other fields hold. -/
theorem saveSettings_rejects_integer_out_of_range (c : Settings) (st : PomodoroTimer)
    (h : (c.workDuration.outside 1 60 || c.shortBreakDuration.outside 1 30 ||
      c.longBreakDuration.outside 1 60 || c.longBreakAfter.outside 2 10) = true) :
    validateSettings c = false ∧ saveSettings c st = st := by
  have hv : validateSettings c = false := by
    rw [← Bool.not_eq_true, validateSettings_iff_tests]
    rintro ⟨c1, c2, c3, c4⟩
    simp only [Bool.or_eq_true] at h
    rcases h with ((h | h) | h) | h
    · rw [outside_test h] at c1; exact Bool.noConfusion c1
    · rw [outside_test h] at c2; exact Bool.noConfusion c2
    · rw [outside_test h] at c3; exact Bool.noConfusion c3
    · rw [outside_test h] at c4; exact Bool.noConfusion c4
  exact ⟨hv, saveSettings_of_rejected c st hv⟩


/-- C5. The candidate whose work duration is `NaN` and whose other fields are
the defaults violates the range 1-60 of `workDuration`, yet `validateSettings`
builds no error for it and `saveSettings` applies it to the initial state: the
settings become the candidate, the store is written (with `null` for the
`NaN`), and `timeLeft` becomes `NaN`. -/
theorem saveSettings_applies_nan_candidate :
    ({ defaultSettings with workDuration := .nan } : Settings).workDuration.inRange 1 60 = false ∧
    validateSettingsErrors { defaultSettings with workDuration := .nan } = [] ∧
    validateSettings { defaultSettings with workDuration := .nan } = true ∧
    (saveSettings { defaultSettings with workDuration := .nan } (freshTimer none)).settings
      = { defaultSettings with workDuration := .nan } ∧
    (saveSettings { defaultSettings with workDuration := .nan } (freshTimer none)).localStorage
      = some (.json ⟨some .null, some (.num 5), some (.num 15), some (.num 4),
          some true, some false⟩) ∧
    (saveSettings { defaultSettings with workDuration := .nan } (freshTimer none)).timeLeft
      = .nan ∧
    saveSettings { defaultSettings with workDuration := .nan } (freshTimer none)
      ≠ freshTimer none := by
  decide

/-- C10. A form whose work-duration field is empty, the other fields holding
the default values: `Number.parseInt` yields `NaN`, which is in no range, but
both comparisons of `validateSettings` on `NaN` are false, so no error is
built, no alert is shown, and the submission replaces the settings and sets
`timeLeft` to `NaN`. -/
theorem submitSettings_applies_empty_field :
    parseInt (SettingsForm.mk "" "5" "15" "4" true false).workDuration = .nan ∧
    (newSettings ⟨"", "5", "15", "4", true, false⟩).workDuration.inRange 1 60 = false ∧
    validateSettings (newSettings ⟨"", "5", "15", "4", true, false⟩) = true ∧
    validateSettingsAlert (newSettings ⟨"", "5", "15", "4", true, false⟩) = none ∧
    (submitSettings ⟨"", "5", "15", "4", true, false⟩ (freshTimer none)).settings
      = ⟨.nan, .num 5, .num 15, .num 4, true, false⟩ ∧
    (submitSettings ⟨"", "5", "15", "4", true, false⟩ (freshTimer none)).settings
      ≠ (freshTimer none).settings ∧
    (freshTimer none).timeLeft = .num 1500 ∧
    (submitSettings ⟨"", "5", "15", "4", true, false⟩ (freshTimer none)).timeLeft = .nan := by
  decide

/-! ## C6: `saveSettings` with a valid candidate -/

theorem saveSettings_valid_effects (c : Settings) (st : PomodoroTimer)
    (hv : c.valid = true) :
    (saveSettings c st).settings = c ∧
    (saveSettings c st).currentMode = st.currentMode ∧
    (st.isRunning = false → ∀ M : Mode, st.currentMode = M.name →
      (saveSettings c st).timeLeft = (durationFor M c).mul (.num 60)) := by
  have ha := validateSettings_of_valid c hv
  refine ⟨?_, ?_, ?_⟩
  · simp only [saveSettings, ha, saveSettingsToStorage]; split_ifs <;> rfl
  · simp only [saveSettings, ha, saveSettingsToStorage]; split_ifs <;> rfl
  · intro hr M hm
    simp only [saveSettings, ha, saveSettingsToStorage, hr, if_true, Bool.not_false]
    rw [getCurrentModeDuration_name M]
    exact hm

/-- C6. For every state and every candidate `C` whose four numeric fields are
in range, after `saveSettings` the settings are `C` and the store holds the
JSON text of `C`, which reads back as `C`; a timer that was not running has
`timeLeft = durationFor(currentMode, C) * 60`, a running one keeps its
`timeLeft`; `currentMode`, `isRunning` and `completedPomodoros` are
unchanged. -/
theorem saveSettings_applies_valid_candidate (c : Settings) (st : PomodoroTimer)
    (hv : c.valid = true) :
    (saveSettings c st).settings = c ∧
    (saveSettings c st).localStorage = some (.json (stringifySettings c)) ∧
    (∀ s : Settings, mergeSettings s (stringifySettings c) = c) ∧
    (st.isRunning = false → ∀ M : Mode, st.currentMode = M.name →
      (saveSettings c st).timeLeft = (durationFor M c).mul (.num 60) ∧
      ∃ d : Nat, durationFor M c = .num d ∧ 1 ≤ d ∧
        (saveSettings c st).timeLeft = .num ((d : Int) * 60)) ∧
    (st.isRunning = true → (saveSettings c st).timeLeft = st.timeLeft) ∧
    (saveSettings c st).currentMode = st.currentMode ∧
    (saveSettings c st).isRunning = st.isRunning ∧
    (saveSettings c st).completedPomodoros = st.completedPomodoros := by
  have ha := validateSettings_of_valid c hv
  refine ⟨?_, ?_, ?_, ?_, ?_, ?_, ?_, ?_⟩
  · simp only [saveSettings, ha, saveSettingsToStorage]; split_ifs <;> rfl
  · simp only [saveSettings, ha, saveSettingsToStorage]; split_ifs <;> rfl
  · intro s
    obtain ⟨w, sb, l, a, e, _⟩ := valid_fields c hv
    rw [e]
    rfl
  · intro hr M hm
    obtain ⟨d, hd, hd1, _⟩ := durationFor_valid M c hv
    have e : (saveSettings c st).timeLeft = (durationFor M c).mul (.num 60) := by
      simp only [saveSettings, ha, saveSettingsToStorage, hr, if_true, Bool.not_false]
      rw [getCurrentModeDuration_name M]
      exact hm
    refine ⟨e, d, hd, hd1, ?_⟩
    rw [e, hd]; rfl
  · intro hr
    simp [saveSettings, ha, saveSettingsToStorage, hr]
  · simp only [saveSettings, ha, saveSettingsToStorage]; split_ifs <;> rfl
  · simp only [saveSettings, ha, saveSettingsToStorage]; split_ifs <;> rfl
  · simp only [saveSettings, ha, saveSettingsToStorage]; split_ifs <;> rfl

theorem saveSettings_applies_valid_candidate_witness :
    (saveSettings ⟨.num 50, .num 10, .num 20, .num 2, false, true⟩
      (startTimer (freshTimer none))).settings
      = ⟨.num 50, .num 10, .num 20, .num 2, false, true⟩ ∧
    (saveSettings ⟨.num 50, .num 10, .num 20, .num 2, false, true⟩
      (startTimer (freshTimer none))).timeLeft = .num 1500 :=
  have h := saveSettings_applies_valid_candidate ⟨.num 50, .num 10, .num 20, .num 2, false, true⟩
    (startTimer (freshTimer none)) (by decide)
  ⟨h.1, h.2.2.2.2.1 (by decide)⟩


/-! ## C7: `loadSettings` -/

/-- C7, as stated, fails: with a stored text that `JSON.parse` rejects,
`loadSettings` throws, and so does the constructor that calls it. -/
theorem loadSettings_throws_on_malformed :
    loadSettings (freshTimer (some .malformed)) = .error .syntaxError ∧
    PomodoroTimer.create (some .malformed) = .error .syntaxError :=
  ⟨rfl, rfl⟩

/-- C7, amended. With no stored entry (or an empty one) `loadSettings` returns
and the settings are the defaults 25, 5, 15, 4, sound on, auto-start off; a
stored text that cannot be parsed makes it throw; a stored record overrides
exactly the fields present in it; and loading what `saveSettingsToStorage`
wrote for settings with integer fields yields those settings. -/
theorem loadSettings_merges_over_defaults :
    (∃ st, PomodoroTimer.create none = .ok st ∧
      st.settings = ⟨.num 25, .num 5, .num 15, .num 4, true, false⟩) ∧
    (∃ st, PomodoroTimer.create (some .empty) = .ok st ∧
      st.settings = ⟨.num 25, .num 5, .num 15, .num 4, true, false⟩) ∧
    PomodoroTimer.create (some .malformed) = .error .syntaxError ∧
    (∀ r : StoredRecord, ∃ st, PomodoroTimer.create (some (.json r)) = .ok st ∧
      st.settings.workDuration
        = (match r.workDuration with | some v => v.toJSValue | none => .num 25) ∧
      st.settings.shortBreakDuration
        = (match r.shortBreakDuration with | some v => v.toJSValue | none => .num 5) ∧
      st.settings.longBreakDuration
        = (match r.longBreakDuration with | some v => v.toJSValue | none => .num 15) ∧
      st.settings.longBreakAfter
        = (match r.longBreakAfter with | some v => v.toJSValue | none => .num 4) ∧
      st.settings.soundAlert = (match r.soundAlert with | some b => b | none => true) ∧
      st.settings.autoStart = (match r.autoStart with | some b => b | none => false)) ∧
    (∀ (st : PomodoroTimer) (w s l a : Int) (snd auto : Bool),
      ∃ st1, PomodoroTimer.create
          (saveSettingsToStorage
            { st with settings := ⟨.num w, .num s, .num l, .num a, snd, auto⟩ }).localStorage
          = .ok st1 ∧
        st1.settings = ⟨.num w, .num s, .num l, .num a, snd, auto⟩) := by
  refine ⟨⟨_, rfl, rfl⟩, ⟨_, rfl, rfl⟩, rfl, ?_, ?_⟩
  · intro r
    refine ⟨_, rfl, ?_⟩
    obtain ⟨w, s, l, a, snd, auto⟩ := r
    cases w <;> cases s <;> cases l <;> cases a <;> cases snd <;> cases auto <;>
      exact ⟨rfl, rfl, rfl, rfl, rfl, rfl⟩
  · intro st w s l a snd auto
    exact ⟨_, rfl, rfl⟩


/-! ## C9: at most one tick source -/

theorem filter_tick_clear (h : Nat) (ts : List Timer)
    (hs : ts.filter (fun t => t.kind == .tick) = [⟨h, .tick⟩]) :
    (ts.filter (fun t => t.id != h)).filter (fun t => t.kind == .tick) = [] := by
  rw [List.filter_filter]
  have e : (fun t : Timer => (t.kind == TimerKind.tick) && (t.id != h))
      = (fun t : Timer => (t.id != h) && (t.kind == TimerKind.tick)) := by
    funext t; exact Bool.and_comm _ _
  rw [e, ← List.filter_filter, hs]
  simp

theorem filter_tick_erase (t : Timer) (ts : List Timer) (ht : (t.kind == .tick) = false) :
    (ts.erase t).filter (fun t => t.kind == .tick) = ts.filter (fun t => t.kind == .tick) := by
  induction ts with
  | nil => rfl
  | cons a rest ih =>
    by_cases hat : a = t
    · subst hat
      simp [ht]
    · have : (a == t) = false := by simpa using hat
      rw [List.erase_cons, this]
      simp only [Bool.false_eq_true, if_false, List.filter_cons, ih]

theorem pauseTimer_single (st : PomodoroTimer) (h : SingleSource st) :
    SingleSource (pauseTimer st) ∧ (pauseTimer st).isRunning = false := by
  unfold pauseTimer
  by_cases hr : st.isRunning = true
  · obtain ⟨i, hi, hs⟩ := h.1 hr
    simp only [hr, if_true, and_true]
    refine ⟨fun hc => Bool.noConfusion hc, fun _ => ?_⟩
    simp only [tickSources, hi, clearInterval]
    exact filter_tick_clear i _ hs
  · simp only [hr, if_false, Bool.false_eq_true]
    exact ⟨h, trivial⟩

theorem startTimer_single (st : PomodoroTimer) (h : SingleSource st) :
    SingleSource (startTimer st) := by
  unfold startTimer
  by_cases hr : st.isRunning = true
  · simpa [hr] using h
  · have hf : st.isRunning = false := by simpa using hr
    have hs := h.2 hf
    simp only [hf, Bool.not_false, if_true]
    refine ⟨fun _ => ⟨st.nextTimerId, rfl, ?_⟩, fun hc => Bool.noConfusion hc⟩
    simp only [tickSources] at hs ⊢
    simp [List.filter_append, hs]

theorem setTimeout_single (kind : TimerKind) (hk : kind ≠ .tick) (st : PomodoroTimer)
    (h : SingleSource st) : SingleSource (setTimeout kind st) := by
  have e : tickSources (setTimeout kind st) = tickSources st := by
    simp [tickSources, setTimeout, List.filter_append, hk]
  exact ⟨fun hr => by rw [e]; exact h.1 hr, fun hr => by rw [e]; exact h.2 hr⟩

/-- A change of fields other than `isRunning`, `timerInterval` and `timers`. -/
theorem singleSource_congr {st st1 : PomodoroTimer} (h : SingleSource st)
    (h1 : st1.isRunning = st.isRunning) (h2 : st1.timerInterval = st.timerInterval)
    (h3 : st1.timers = st.timers) : SingleSource st1 := by
  unfold SingleSource tickSources at *
  rw [h1, h2, h3]
  exact h

theorem switchMode_single (mode : String) (st : PomodoroTimer) (h : SingleSource st) :
    SingleSource (switchMode mode st) := by
  have hp := (pauseTimer_single st h).1
  have hs : SingleSource (if st.isRunning = true then pauseTimer st else st) := by
    split_ifs
    · exact hp
    · exact h
  exact singleSource_congr hs rfl rfl rfl

theorem resetTimer_single (st : PomodoroTimer) (h : SingleSource st) :
    SingleSource (resetTimer st) :=
  singleSource_congr (pauseTimer_single st h).1 rfl rfl rfl

theorem completeSession_single (st : PomodoroTimer) (h : SingleSource st) :
    SingleSource (completeSession st) := by
  unfold completeSession
  have h0 : SingleSource { st with completeSessionCalls := st.completeSessionCalls + 1 } :=
    singleSource_congr h rfl rfl rfl
  have h1 := (pauseTimer_single _ h0).1
  apply setTimeout_single _ (by decide)
  have key : ∀ s : PomodoroTimer, SingleSource s →
      SingleSource (if s.settings.autoStart = true then setTimeout .autoStart s else s) := by
    intro s hs
    split_ifs
    · exact setTimeout_single _ (by decide) s hs
    · exact hs
  apply key
  apply switchMode_single
  split_ifs
  · exact singleSource_congr h1 rfl rfl rfl
  · exact h1

theorem tick_single (st : PomodoroTimer) (h : SingleSource st) : SingleSource (tick st) := by
  have h0 : SingleSource { st with timeLeft := st.timeLeft.dec } := singleSource_congr h rfl rfl rfl
  simp only [tick]
  split_ifs
  · exact completeSession_single _ h0
  · exact h0

theorem saveSettings_single (c : Settings) (st : PomodoroTimer) (h : SingleSource st) :
    SingleSource (saveSettings c st) := by
  simp only [saveSettings, saveSettingsToStorage]
  split_ifs
  · exact singleSource_congr h rfl rfl rfl
  · exact singleSource_congr h rfl rfl rfl
  · exact h

theorem fireInterval_single (id : Nat) (st : PomodoroTimer) (h : SingleSource st) :
    SingleSource (fireInterval id st) := by
  unfold fireInterval
  split_ifs
  · exact tick_single st h
  · exact h

theorem fireTimeout_single (id : Nat) (st : PomodoroTimer) (h : SingleSource st) :
    SingleSource (fireTimeout id st) := by
  unfold fireTimeout
  split
  · exact h
  · rename_i t ht
    have hk : (t.kind == .tick) = false := by
      have := List.find?_some ht
      simp only [Bool.and_eq_true, bne_iff_ne, ne_eq] at this
      simpa using this.2
    have h0 : SingleSource { st with timers := st.timers.erase t } := by
      have e : tickSources { st with timers := st.timers.erase t } = tickSources st := by
        simp only [tickSources]
        exact filter_tick_erase t _ hk
      exact ⟨fun hr => by rw [e]; exact h.1 hr, fun hr => by rw [e]; exact h.2 hr⟩
    split
    · exact startTimer_single _ h0
    · exact h0

theorem apply_single (a : Action) (st : PomodoroTimer) (h : SingleSource st) :
    SingleSource (a.apply st) := by
  cases a with
  | startTimer => exact startTimer_single st h
  | pauseTimer => exact (pauseTimer_single st h).1
  | resetTimer => exact resetTimer_single st h
  | switchMode mode => exact switchMode_single _ st h
  | tick => exact tick_single st h
  | completeSession => exact completeSession_single st h
  | saveSettings c => exact saveSettings_single c st h
  | fireInterval id => exact fireInterval_single id st h
  | fireTimeout id => exact fireTimeout_single id st h

theorem runActions_single (acts : List Action) (st : PomodoroTimer) (h : SingleSource st) :
    SingleSource (runActions acts st) := by
  induction acts generalizing st with
  | nil => exact h
  | cons a rest ih => exact ih _ (apply_single a st h)

theorem create_single (stored : Option StoredText) (st0 : PomodoroTimer)
    (h : PomodoroTimer.create stored = .ok st0) : SingleSource st0 := by
  have base : SingleSource (freshTimer stored) :=
    ⟨fun hc => Bool.noConfusion hc, fun _ => rfl⟩
  unfold PomodoroTimer.create loadSettings at h
  split at h
  · cases h; exact base
  · cases h; exact base
  · cases h
  · cases h; exact singleSource_congr base rfl rfl rfl

theorem activeTickSources_of_single (st : PomodoroTimer) (h : SingleSource st) :
    activeTickSources st = (if st.isRunning = true then 1 else 0) := by
  unfold activeTickSources
  by_cases hr : st.isRunning = true
  · obtain ⟨i, _, hs⟩ := h.1 hr
    simp [hr, hs]
  · have hf : st.isRunning = false := by simpa using hr
    simp [hf, h.2 hf]


/-- C9. In every state reached from the constructor's state by any sequence of
`startTimer`, `pauseTimer`, `resetTimer`, `switchMode`, the countdown callback,
`completeSession`, `saveSettings` (any candidate) and the firing of any
interval or timeout, the number of registered countdown intervals is 1 when
`isRunning` is true and 0 when it is false, so never more than one; on a
running timer `startTimer` changes nothing, and a timeout that fires then (a
deferred auto-start among them) leaves the timer running with one source. -/
theorem one_tick_source_when_running (stored : Option StoredText) (st0 : PomodoroTimer)
    (acts : List Action) (h0 : PomodoroTimer.create stored = .ok st0) :
    activeTickSources (runActions acts st0)
      = (if (runActions acts st0).isRunning = true then 1 else 0) ∧
    activeTickSources (runActions acts st0) ≤ 1 ∧
    ((runActions acts st0).isRunning = true →
      startTimer (runActions acts st0) = runActions acts st0) ∧
    ((runActions acts st0).isRunning = true → ∀ id : Nat,
      (fireTimeout id (runActions acts st0)).isRunning = true ∧
      activeTickSources (fireTimeout id (runActions acts st0)) = 1) := by
  have hs := runActions_single acts st0 (create_single stored st0 h0)
  have hc := activeTickSources_of_single _ hs
  refine ⟨hc, ?_, ?_, ?_⟩
  · rw [hc]; split_ifs <;> omega
  · intro hr
    simp [startTimer, hr]
  · intro hr id
    have hf := fireTimeout_single id _ hs
    have hrun : (fireTimeout id (runActions acts st0)).isRunning = true := by
      unfold fireTimeout
      split
      · exact hr
      · split
        · simp [startTimer, hr]
        · exact hr
    refine ⟨hrun, ?_⟩
    rw [activeTickSources_of_single _ hf, hrun]
    rfl

theorem one_tick_source_when_running_witness :
    (runActions [.saveSettings { defaultSettings with autoStart := true },
        .completeSession, .startTimer] (freshTimer none)).timers
      = [⟨1, .autoStart⟩, ⟨2, .pulse⟩, ⟨3, .tick⟩] ∧
    (fireTimeout 1 (runActions [.saveSettings { defaultSettings with autoStart := true },
        .completeSession, .startTimer] (freshTimer none))).isRunning = true ∧
    activeTickSources (fireTimeout 1
      (runActions [.saveSettings { defaultSettings with autoStart := true },
        .completeSession, .startTimer] (freshTimer none))) = 1 :=
  ⟨by decide,
    (one_tick_source_when_running none (freshTimer none)
      [.saveSettings { defaultSettings with autoStart := true }, .completeSession, .startTimer]
      rfl).2.2.2 (by decide) 1⟩


/-! ## C8: `timeLeft` and the duration of the current mode -/

theorem countdownInv_congr {st st1 : PomodoroTimer} (h : CountdownInv st)
    (h1 : st1.settings = st.settings) (h2 : st1.currentMode = st.currentMode)
    (h3 : st1.timeLeft = st.timeLeft) : CountdownInv st1 := by
  unfold CountdownInv at *
  rw [h1, h2, h3]
  exact h

theorem countdownInv_of_full (st : PomodoroTimer) (hv : st.settings.valid = true) (M : Mode)
    (hm : st.currentMode = M.name)
    (ht : st.timeLeft = (durationFor M st.settings).mul (.num 60)) : CountdownInv st := by
  obtain ⟨d, hd, hd1, _⟩ := durationFor_valid M st.settings hv
  refine ⟨hv, M, (d : Int) * 60, d, hm, ?_, hd, by omega, le_refl _⟩
  rw [ht, hd]; rfl

theorem pauseTimer_fields (st : PomodoroTimer) :
    (pauseTimer st).settings = st.settings ∧ (pauseTimer st).currentMode = st.currentMode ∧
    (pauseTimer st).timeLeft = st.timeLeft := by
  unfold pauseTimer
  split_ifs <;> exact ⟨rfl, rfl, rfl⟩

theorem startTimer_fields (st : PomodoroTimer) :
    (startTimer st).settings = st.settings ∧ (startTimer st).currentMode = st.currentMode ∧
    (startTimer st).timeLeft = st.timeLeft := by
  unfold startTimer
  split_ifs <;> exact ⟨rfl, rfl, rfl⟩

theorem switchMode_settings (mode : String) (st : PomodoroTimer) :
    (switchMode mode st).settings = st.settings := by
  simp only [switchMode, pauseTimer]; split_ifs <;> rfl

theorem switchMode_inv (M : Mode) (st : PomodoroTimer) (hv : st.settings.valid = true) :
    CountdownInv (switchMode M.name st) := by
  apply countdownInv_of_full _ (by rw [switchMode_settings]; exact hv) M rfl
  rw [switchMode_timeLeft, switchMode_settings]

theorem resetTimer_inv (st : PomodoroTimer) (h : CountdownInv st) :
    CountdownInv (resetTimer st) := by
  obtain ⟨hv, M, t, d, hm, _, _, _, _⟩ := h
  obtain ⟨e1, e2, _⟩ := pauseTimer_fields st
  have hm1 : (pauseTimer st).currentMode = M.name := by rw [e2, hm]
  apply countdownInv_of_full (resetTimer st) (by show (pauseTimer st).settings.valid = true; rw [e1]; exact hv) M hm1
  show (getCurrentModeDuration (pauseTimer st)).mul (.num 60) = _
  rw [getCurrentModeDuration_name M _ hm1]
  rfl

theorem getNextMode_name (st : PomodoroTimer) : ∃ M : Mode, getNextMode st = M.name := by
  unfold getNextMode
  split_ifs
  · exact ⟨.long, rfl⟩
  · exact ⟨.short, rfl⟩
  · exact ⟨.work, rfl⟩

theorem setTimeout_fields (kind : TimerKind) (st : PomodoroTimer) :
    (setTimeout kind st).settings = st.settings ∧
    (setTimeout kind st).currentMode = st.currentMode ∧
    (setTimeout kind st).timeLeft = st.timeLeft :=
  ⟨rfl, rfl, rfl⟩

theorem completeSession_inv (st : PomodoroTimer) (hv : st.settings.valid = true) :
    CountdownInv (completeSession st) := by
  unfold completeSession
  have key : ∀ s : PomodoroTimer, CountdownInv s →
      CountdownInv (if s.settings.autoStart = true then setTimeout .autoStart s else s) := by
    intro s hs
    split_ifs
    · exact countdownInv_congr hs rfl rfl rfl
    · exact hs
  refine countdownInv_congr (key _ ?_) rfl rfl rfl
  generalize hs : (if (pauseTimer { st with completeSessionCalls := st.completeSessionCalls + 1 }).currentMode = "work"
    then { pauseTimer { st with completeSessionCalls := st.completeSessionCalls + 1 } with
      completedPomodoros :=
        (pauseTimer { st with completeSessionCalls := st.completeSessionCalls + 1 }).completedPomodoros + 1 }
    else pauseTimer { st with completeSessionCalls := st.completeSessionCalls + 1 }) = s
  have hsv : s.settings.valid = true := by
    rw [← hs]
    split_ifs
    · show (pauseTimer _).settings.valid = true
      rw [(pauseTimer_fields _).1]; exact hv
    · rw [(pauseTimer_fields _).1]; exact hv
  obtain ⟨M, hM⟩ := getNextMode_name s
  show CountdownInv (switchMode (getNextMode s) s)
  rw [hM]
  exact switchMode_inv M s hsv

theorem tick_inv (st : PomodoroTimer) (h : CountdownInv st) : CountdownInv (tick st) := by
  obtain ⟨hv, M, t, d, hm, ht, hd, h1, h2⟩ := h
  simp only [tick]
  split_ifs with hle
  · exact completeSession_inv _ hv
  · refine ⟨hv, M, t - 1, d, hm, ?_, hd, ?_, by omega⟩
    · simp [ht, JSValue.dec, JSValue.toNumber]
    · simp only [ht, JSValue.dec, JSValue.toNumber, JSValue.le, decide_eq_true_eq] at hle
      omega

theorem saveSettings_inv (c : Settings) (st : PomodoroTimer) (hc : c.valid = true)
    (hr : st.isRunning = false) (h : CountdownInv st) : CountdownInv (saveSettings c st) := by
  obtain ⟨_, M, t, d, hm, _, _, _, _⟩ := h
  obtain ⟨e1, e2, e3⟩ := saveSettings_valid_effects c st hc
  apply countdownInv_of_full _ (by rw [e1]; exact hc) M (by rw [e2, hm])
  rw [e1]
  exact e3 hr M hm

theorem apply_inv (a : Action) (st : PomodoroTimer) (h : CountdownInv st)
    (ha : a.countdownStep false st = true) : CountdownInv (a.apply st) := by
  cases a with
  | startTimer =>
    obtain ⟨e1, e2, e3⟩ := startTimer_fields st
    exact countdownInv_congr h e1 e2 e3
  | pauseTimer =>
    obtain ⟨e1, e2, e3⟩ := pauseTimer_fields st
    exact countdownInv_congr h e1 e2 e3
  | resetTimer => exact resetTimer_inv st h
  | switchMode mode => exact switchMode_inv mode st h.1
  | tick => exact tick_inv st h
  | completeSession => simp [Action.countdownStep] at ha
  | saveSettings c =>
    simp only [Action.countdownStep, Bool.false_or, Bool.and_eq_true, Bool.not_eq_true'] at ha
    exact saveSettings_inv c st ha.1 ha.2 h
  | fireInterval id => simp [Action.countdownStep] at ha
  | fireTimeout id => simp [Action.countdownStep] at ha

theorem runActions_inv (acts : List Action) (st : PomodoroTimer) (h : CountdownInv st)
    (hrun : countdownRun false acts st = true) : CountdownInv (runActions acts st) := by
  induction acts generalizing st with
  | nil => exact h
  | cons a rest ih =>
    simp only [countdownRun, Bool.and_eq_true] at hrun
    exact ih _ (apply_inv a st h hrun.1) hrun.2


theorem create_inv (stored : Option StoredText) (st0 : PomodoroTimer)
    (h0 : PomodoroTimer.create stored = .ok st0) (hv : st0.settings.valid = true)
    (hb : withinDuration st0 = true) : CountdownInv st0 := by
  have hf : st0.currentMode = "work" ∧ st0.timeLeft = .num 1500 := by
    unfold PomodoroTimer.create loadSettings at h0
    split at h0
    · cases h0; exact ⟨rfl, rfl⟩
    · cases h0; exact ⟨rfl, rfl⟩
    · cases h0
    · cases h0; exact ⟨rfl, rfl⟩
  obtain ⟨d, hd, _, _⟩ := durationFor_valid .work st0.settings hv
  refine ⟨hv, .work, 1500, d, hf.1, hf.2, hd, by omega, ?_⟩
  simp only [withinDuration, Bool.and_eq_true] at hb
  have h2 := hb.2
  rw [getCurrentModeDuration_name .work st0 hf.1, hd, hf.2] at h2
  simpa [JSValue.le, JSValue.mul, JSValue.toNumber] using h2

theorem progress_of_inv (st : PomodoroTimer) (M : Mode) (t : Int) (d : Nat)
    (hm : st.currentMode = M.name) (ht : st.timeLeft = .num t)
    (hd : durationFor M st.settings = .num d) (h0 : 0 ≤ t) (h1 : t ≤ (d : Int) * 60)
    (hpos : 1 ≤ d) :
    ∃ q : ℚ, updateProgressRing st = some q ∧ 0 ≤ q ∧ q ≤ 1 := by
  have hne : ¬ ((d : Int) * 60 = 0) := by omega
  refine ⟨(((d : Int) * 60 : Int) - (t : ℚ)) / ((d : Int) * 60 : Int), ?_, ?_, ?_⟩
  · simp only [updateProgressRing, getCurrentModeDuration_name M st hm, hd, ht, JSValue.mul,
      JSValue.toNumber, hne, if_false]
  · have hq : (t : ℚ) ≤ (((d : Int) * 60 : Int) : ℚ) := by exact_mod_cast h1
    have hp : (0 : ℚ) ≤ (((d : Int) * 60 : Int) : ℚ) := by
      have : (0 : Int) ≤ (d : Int) * 60 := by omega
      exact_mod_cast this
    exact div_nonneg (by linarith) hp
  · have hq : (0 : ℚ) ≤ (t : ℚ) := by exact_mod_cast h0
    have hp : (0 : ℚ) < (((d : Int) * 60 : Int) : ℚ) := by
      have : (0 : Int) < (d : Int) * 60 := by omega
      exact_mod_cast this
    rw [div_le_one hp]
    linarith

/-- C8, as stated, fails: from the initial state with nothing stored,
`startTimer` and then `saveSettings` with the valid candidate whose work
duration is 1 minute leave `timeLeft` at 1500 with a duration of 60 seconds,
and the next tick draws a negative progress. -/
theorem saveSettings_while_running_breaks_bound :
    PomodoroTimer.create none = .ok (freshTimer none) ∧
    countdownRun true
      [.startTimer, .saveSettings { defaultSettings with workDuration := .num 1 }]
      (freshTimer none) = true ∧
    (runActions [.startTimer, .saveSettings { defaultSettings with workDuration := .num 1 }]
      (freshTimer none)).timeLeft = .num 1500 ∧
    (getCurrentModeDuration
      (runActions [.startTimer, .saveSettings { defaultSettings with workDuration := .num 1 }]
        (freshTimer none))).mul (.num 60) = .num 60 ∧
    withinDuration
      (runActions [.startTimer, .saveSettings { defaultSettings with workDuration := .num 1 }]
        (freshTimer none)) = false ∧
    tickProgress
      (runActions [.startTimer, .saveSettings { defaultSettings with workDuration := .num 1 }]
        (freshTimer none)) = some (((60 : ℚ) - 1499) / 60) ∧
    ((60 : ℚ) - 1499) / 60 < 0 := by
  refine ⟨rfl, by decide, by decide, by decide, by decide, ?_, by norm_num⟩
  simp only [tickProgress, updateProgressRing, runActions, Action.apply, startTimer,
    saveSettings, saveSettingsToStorage, freshTimer, defaultSettings, getCurrentModeDuration,
    JSValue.mul, JSValue.dec, JSValue.toNumber]
  norm_num [validateSettings, validateSettingsErrors, JSValue.lt, JSValue.gt,
    JSValue.toNumber]

/-- C8, amended. From a state the constructor builds with valid settings and
its `timeLeft` (1500) within the work duration, in every state reached by any
sequence of `startTimer`, `pauseTimer`, `resetTimer`, `switchMode`, ticks while
running and `saveSettings` with valid candidates submitted while the timer is
not running, `0 <= timeLeft <= durationFor(currentMode) * 60`, and the progress
fraction of `updateProgressRing` lies in `[0,1]`, also at the call inside the
next tick. -/
theorem timeLeft_within_duration (stored : Option StoredText) (st0 : PomodoroTimer)
    (acts : List Action) (h0 : PomodoroTimer.create stored = .ok st0)
    (hv : st0.settings.valid = true) (hb : withinDuration st0 = true)
    (hrun : countdownRun false acts st0 = true) :
    ∃ (M : Mode) (t : Int) (d : Nat),
      (runActions acts st0).currentMode = M.name ∧
      (runActions acts st0).timeLeft = .num t ∧
      durationFor M (runActions acts st0).settings = .num d ∧
      0 ≤ t ∧ t ≤ (d : Int) * 60 ∧
      withinDuration (runActions acts st0) = true ∧
      (∃ q : ℚ, updateProgressRing (runActions acts st0) = some q ∧ 0 ≤ q ∧ q ≤ 1) ∧
      (∃ q : ℚ, tickProgress (runActions acts st0) = some q ∧ 0 ≤ q ∧ q ≤ 1) := by
  obtain ⟨hval, M, t, d, hm, ht, hd, h1, h2⟩ :=
    runActions_inv acts st0 (create_inv stored st0 h0 hv hb) hrun
  obtain ⟨d1, hd1, hpos, _⟩ := durationFor_valid M _ hval
  have hdd : d1 = d := by
    rw [hd] at hd1
    injection hd1 with e
    exact_mod_cast e.symm
  subst hdd
  refine ⟨M, t, d1, hm, ht, hd, by omega, h2, ?_, ?_, ?_⟩
  · simp only [withinDuration, getCurrentModeDuration_name M _ hm, hd, ht, JSValue.le,
      JSValue.mul, JSValue.toNumber, Bool.and_eq_true, decide_eq_true_eq]
    omega
  · exact progress_of_inv _ M t d1 hm ht hd (by omega) h2 hpos
  · exact progress_of_inv _ M (t - 1) d1 hm (by simp [ht, JSValue.dec, JSValue.toNumber]) hd
      (by omega) (by omega) hpos

theorem timeLeft_within_duration_witness :
    ∃ (M : Mode) (t : Int) (d : Nat),
      (runActions [.startTimer, .tick, .pauseTimer,
        .saveSettings { defaultSettings with workDuration := .num 1 }]
        (freshTimer none)).currentMode = M.name ∧
      (runActions [.startTimer, .tick, .pauseTimer,
        .saveSettings { defaultSettings with workDuration := .num 1 }]
        (freshTimer none)).timeLeft = .num t ∧
      durationFor M (runActions [.startTimer, .tick, .pauseTimer,
        .saveSettings { defaultSettings with workDuration := .num 1 }]
        (freshTimer none)).settings = .num d ∧
      0 ≤ t ∧ t ≤ (d : Int) * 60 ∧
      withinDuration (runActions [.startTimer, .tick, .pauseTimer,
        .saveSettings { defaultSettings with workDuration := .num 1 }]
        (freshTimer none)) = true ∧
      (∃ q : ℚ, updateProgressRing (runActions [.startTimer, .tick, .pauseTimer,
        .saveSettings { defaultSettings with workDuration := .num 1 }]
        (freshTimer none)) = some q ∧ 0 ≤ q ∧ q ≤ 1) ∧
      (∃ q : ℚ, tickProgress (runActions [.startTimer, .tick, .pauseTimer,
        .saveSettings { defaultSettings with workDuration := .num 1 }]
        (freshTimer none)) = some q ∧ 0 ≤ q ∧ q ≤ 1) :=
  timeLeft_within_duration none (freshTimer none)
    [.startTimer, .tick, .pauseTimer,
      .saveSettings { defaultSettings with workDuration := .num 1 }]
    rfl (by decide) (by decide) (by decide)

end Pomodoro
